import Mathlib

/-!
Verification of the nopre-evolution screenshot-ingestion pipeline.

The Python sources under `src/` are shallowly embedded here:

* pure string/number manipulation (`clean_number` of the three OCR
  processors, the pattern-cascade loop of `extract_field_value`, the
  field extraction in `extract_data`) becomes executable Lean functions
  over `List Char` / `String`, with Python floats modelled as exact
  rationals (`ℚ`);
* the SQLite ledger of `database.py` becomes an explicit `DB` state
  (a list of inserted rows plus the list of `processed_files` names);
  each Python method that opens a connection and commits is one Lean
  state transformer, and the `sqlite3.IntegrityError` raised by the
  UNIQUE column is an `Except` error;
* the monitor of `monitor.py` becomes transformers on a `Sys` state
  (ledger + watch directory + archive directory); the sequence of
  durable commit points inside `process_file` is materialised as the
  list of intermediate states `processFileStates`, so crash behaviour
  between commits can be stated;
* external libraries (the `re` regex engine, OpenCV, tesseract/easyocr)
  are not part of the repository; calls into them are parameters
  (oracles) of the embedded functions: a regex call becomes a function
  from pattern and text to the list of captured groups, an OCR call a
  function from (preprocessing method, tesseract config) to the
  recognised text (with `""` for both empty output and a swallowed
  per-combination exception, which the source treats identically).
-/

/-- Characters kept by `re.sub(r'[^\d.,-]', '', text)` in `clean_number`. -/

def isKeptChar (c : Char) : Bool := c.isDigit || c = '.' || c = ',' || c = '-'

/-- Cleaned residue of an input string: every character outside
`[0-9.,-]` removed (`ocr_processor.py` line 126 and its twins). -/

def residue (s : String) : List Char := s.data.filter isKeptChar

/-- Python `text.replace(a, '')` for a one-character pattern. -/

def dropC (a : Char) (l : List Char) : List Char := l.filter (fun c => c ≠ a)

/-- Python `text.replace(a, b)` for one-character pattern and replacement. -/

def swapC (a b : Char) (l : List Char) : List Char :=
  l.map (fun c => if c = a then b else c)

/-- Python `text.split(a)` for a one-character separator. -/

def splitOnC (a : Char) : List Char → List (List Char)
  | [] => [[]]
  | c :: cs =>
    match splitOnC a cs with
    | [] => [[]]
    | h :: t => if c = a then [] :: h :: t else (c :: h) :: t

/-- Numeric value of a list of decimal digit characters. -/

def natOfDigits (l : List Char) : Nat :=
  l.foldl (fun n c => 10 * n + (c.toNat - 48)) 0

/-- Magnitude part of the Python `float(text)` parse: digits with at
most one decimal point and at least one digit overall. -/

def parseMag (m : List Char) : Option ℚ :=
  match splitOnC '.' m with
  | [ip] =>
    if ip ≠ [] ∧ ip.all Char.isDigit then some (natOfDigits ip : ℚ) else none
  | [ip, fp] =>
    if (ip ++ fp) ≠ [] ∧ ip.all Char.isDigit ∧ fp.all Char.isDigit then
      some ((natOfDigits ip : ℚ) + (natOfDigits fp : ℚ) / 10 ^ fp.length)
    else none
  | _ => none

/-- Python `float(text)` on the strings reachable in `clean_number`
(alphabet `[0-9.,-]` after separator normalisation): an optional single
leading minus, then `parseMag` digits with at most one decimal point
and at least one digit.  Floats are modelled as exact rationals. -/

def parseDec (l : List Char) : Option ℚ :=
  match l with
  | '-' :: rest => (parseMag rest).map (fun v => -v)
  | _ => parseMag l

/-- Separator disambiguation of `SicalOCRProcessor.clean_number`
(`ocr_processor.py` lines 133-152), including the single-dot
3-characters-after-the-dot rule. -/

def sepTransform (l : List Char) : List Char :=
  let dots := l.count '.'
  let commas := l.count ','
  if 0 < dots ∧ 0 < commas then swapC ',' '.' (dropC '.' l)
  else if commas = 1 ∧ dots = 0 then swapC ',' '.' l
  else if 1 < dots then dropC '.' l
  else if dots = 1 ∧ commas = 0 then
    match splitOnC '.' l with
    | [a, b] => if b.length = 3 then a ++ b else l
    | _ => l
  else l

/-- Separator disambiguation shared by `SicalOCRProcessorEnhanced.clean_number`
(`ocr_processor_enhanced.py` lines 163-172) and
`SicalEasyOCRProcessor.clean_number` (`ocr_easyocr.py` lines 50-56):
same as the base one but without the single-dot branch. -/

def sepTransformE (l : List Char) : List Char :=
  let dots := l.count '.'
  let commas := l.count ','
  if 0 < dots ∧ 0 < commas then swapC ',' '.' (dropC '.' l)
  else if commas = 1 ∧ dots = 0 then swapC ',' '.' l
  else if 1 < dots then dropC '.' l
  else l

/-- Final `try: float(...)` block of the base and easyocr normalisers:
parse, then reject magnitudes above the `1e15` sanity ceiling. -/

def finishBase (t : List Char) : Option ℚ :=
  match parseDec t with
  | some v => if |v| > 10 ^ 15 then none else some v
  | none => none

/-- `SicalOCRProcessor.clean_number` (`ocr_processor.py` lines 118-161). -/

def clean_number (s : String) : Option ℚ :=
  if s.data = [] then none
  else
    let t := residue s
    if t = [] ∨ t = ['-'] ∨ t = ['.'] ∨ t = [','] then none
    else finishBase (sepTransform t)

/-- `SicalOCRProcessorEnhanced.clean_number`
(`ocr_processor_enhanced.py` lines 145-177): no single-dot rule and no
magnitude ceiling. -/

def clean_number_enhanced (s : String) : Option ℚ :=
  if s.data = [] then none
  else
    let t := residue s
    if t = [] ∨ t = ['-'] ∨ t = ['.'] ∨ t = [','] then none
    else parseDec (sepTransformE t)

/-- `SicalEasyOCRProcessor.clean_number` (`ocr_easyocr.py` lines 33-64):
no single-dot rule, but with the `1e15` ceiling. -/

def clean_number_easyocr (s : String) : Option ℚ :=
  if s.data = [] then none
  else
    let t := residue s
    if t = [] ∨ t = ['-'] ∨ t = ['.'] ∨ t = [','] then none
    else finishBase (sepTransformE t)

/-- Residues on which the base normaliser applies its extra single-dot
rule: exactly one dot, no comma, and exactly 3 characters after the dot. -/

def dot3cond (l : List Char) : Bool :=
  decide (l.count '.' = 1) && decide (l.count ',' = 0) &&
    (match splitOnC '.' l with
     | [_, b] => decide (b.length = 3)
     | _ => false)

/-- Python `text.replace(a, r)` for a one-character pattern, at the
character-list level. -/

def replaceChar (a : Char) (r : List Char) (l : List Char) : List Char :=
  l.flatMap (fun c => if c = a then r else [c])

/-- Pattern 1 of `extract_field_value`: field name, separator, number. -/

def labeledPattern (v : String) : String := v ++ "\\s*[:\\s]+([0-9.,]+)"

/-- Pattern 2: field name, optional colon, whitespace, number. -/

def colonPattern (v : String) : String := v ++ "\\s*:?\\s*([0-9.,]+)"

/-- Pattern 3: field name, any gap of up to 50 characters, number. -/

def nearPattern (v : String) : String := v ++ ".\x7b0,50\x7d?([0-9.,]+)"

/-- Pattern 4: field name, any gap of up to 100 characters, then a
grouped thousands/decimal number. -/

def farPattern (v : String) : String :=
  v ++ ".\x7b0,100\x7d?([0-9]\x7b1,3\x7d(?:[.,][0-9]\x7b3\x7d)*(?:[.,][0-9]\x7b2\x7d)?)"

/-- Pattern list built per spelling variant (`ocr_processor.py`
lines 175-184). -/

def mkPatterns (v : String) : List String :=
  [labeledPattern v, colonPattern v, nearPattern v, farPattern v]

/-- OCR spelling variants of a field label (`ñ` may be read as `n` or
`fi`, `ocr_processor.py` lines 166-170). -/

def field_variants (f : String) : List String :=
  if f.data.contains 'ñ' then
    [f, ⟨replaceChar 'ñ' ['n'] f.data⟩, ⟨replaceChar 'ñ' ['f', 'i'] f.data⟩]
  else [f]

/-- The full ordered pattern list: four patterns per variant, variants
in order (`all_patterns.extend(patterns)` per variant). -/

def allFieldPatterns (field : String) : List String :=
  (field_variants field).flatMap mkPatterns

/-- Acceptance test applied to each capture: cleaned value present and
not zero (`if value is not None and value != 0`). -/

def validNZ (c : String) : Option ℚ :=
  match clean_number c with
  | some v => if v ≠ 0 then some v else none
  | none => none

/-- First capture of a match list that cleans to a non-zero number. -/

def firstValidNZ (caps : List String) : Option ℚ := caps.findSome? validNZ

/-- `SicalOCRProcessor.extract_field_value` (`ocr_processor.py`
lines 163-201): try every pattern in order, and inside a pattern every
match in text order; return the first non-zero cleaned value. -/

def extract_field_value (find : String → String → List String)
    (text field : String) : Option ℚ :=
  (allFieldPatterns field).findSome? (fun p => firstValidNZ (find p text))

/-- Demo text for the variant-interleaving counterexample: it holds a
loose match for the accented spelling (`Año xx 7`) and a fully-labeled
match for the accepted de-accented spelling (`Ano: 5`). -/

def anioText : String := "Año xx 7\nAno: 5"

/-- Hand-evaluated `re.finditer` capture lists (flags
`IGNORECASE | DOTALL`) of the twelve `Año` field patterns on
`anioText`: the two exact `Año` patterns have no match (no separator
then digits right after `Año`), the two loose `Año` patterns capture
`"7"` through their gap, every `Ano` pattern captures `"5"`, and the
`Afio` patterns have no match. -/

def findAnio (p t : String) : List String :=
  if t = anioText then
    if p = nearPattern "Año" ∨ p = farPattern "Año" then ["7"]
    else if p = labeledPattern "Ano" ∨ p = colonPattern "Ano" ∨
        p = nearPattern "Ano" ∨ p = farPattern "Ano" then ["5"]
    else []
  else []

/-- The four tesseract configurations (`ocr_processor.py` lines 24-29). -/

def tesseract_configs : List String :=
  ["--oem 3 --psm 6 -l spa", "--oem 3 --psm 4 -l spa",
   "--oem 3 --psm 11 -l spa", "--oem 3 --psm 3 -l spa+eng"]

/-- The three preprocessing methods tried in order
(`ocr_processor.py` line 93). -/

def preprocess_methods : List String := ["advanced", "contrast", "basic"]

/-- The cross product driven by the nested loops of `extract_text`:
methods outer, configs inner. -/

def ocrRuns : List (String × String) :=
  preprocess_methods.flatMap (fun m => tesseract_configs.map (fun c => (m, c)))

/-- `SicalOCRProcessor.extract_text` (`ocr_processor.py` lines 86-116):
keep the recognised text with the strictly greatest length, starting
from the empty string. -/

def extract_text (ocr : String → String → String) : String :=
  ocrRuns.foldl
    (fun best mc =>
      let t := ocr mc.1 mc.2
      if best.length < t.length then t else best)
    ""

/-- Oracle bundle for the `re` module calls of `extract_data`:
`find` is `finditer` (group-1 captures in order), `search` is
`re.search` returning group 1 of the first match, `search0` the same
returning group 0, `findall` returns all group-1 captures, and
`fiveDigitHeader` is the `re.findall(r'\b(\d{5})\b', first-10-lines)`
fallback, returning its first capture. -/

structure RegexEnv where
  find : String → String → List String
  search : String → String → Option String
  search0 : String → String → Option String
  findall : String → String → List String
  fiveDigitHeader : String → Option String

/-- Year patterns (`ocr_processor.py` lines 243-247). -/

def year_patterns : List String :=
  ["A[ñn]o[:\\s]+(\\d\x7b4\x7d)", "Afio[:\\s]+(\\d\x7b4\x7d)",
   "\\b(20[0-9]\x7b2\x7d)\\b"]

/-- Python `int()` on a digit capture. -/

def pyInt (g : String) : Int := (natOfDigits g.data : Int)

/-- Year loop of `extract_data` (`ocr_processor.py` lines 249-254): a
match always overwrites `year`, but only an in-range value breaks. -/

def extractYearGo (search : String → Option String) :
    List String → Option Int → Option Int
  | [], y => y
  | p :: ps, y =>
    match search p with
    | none => extractYearGo search ps y
    | some g =>
      let n := pyInt g
      if 2000 ≤ n ∧ n ≤ 2100 then some n else extractYearGo search ps (some n)

def extractYear (search : String → Option String) : Option Int :=
  extractYearGo search year_patterns none

/-- Concept patterns (`ocr_processor.py` lines 258-262). -/

def concept_patterns : List String :=
  ["Concepto[:\\s]+(\\d\x7b5\x7d)", "Concepto[:\\s]+(\\d\x7b4,6\x7d)",
   "(?:Concepto|concepto)[:\\s]+(\\d+)"]

/-- Concept loop of `extract_data` (`ocr_processor.py` lines 264-275):
first matching labeled pattern wins, else the 5-digit header fallback. -/

def extractConcept (search : String → Option String)
    (fallback5 : Option String) : Option String :=
  match concept_patterns.findSome? search with
  | some c => some c
  | none => fallback5

/-- Description patterns (`ocr_processor.py` lines 279-282). -/

def desc_patterns : List String := ["INGRESOS[^\\n]*", "INGRESOS.*?(?=\\n|$)"]

def extractDesc (search0 : String → Option String) : Option String :=
  desc_patterns.findSome? (fun p => (search0 p).map String.trim)

/-- Deudor patterns (`ocr_processor.py` lines 295-298). -/

def deudor_patterns : List String :=
  ["Deudor[:\\s]+([0-9.,]+)", "Saldo\\s+Inicial[:\\s]+Deudor[:\\s]+([0-9.,]+)"]

/-- Acreedor patterns (`ocr_processor.py` lines 300-303). -/

def acreedor_patterns : List String :=
  ["Acreedor[:\\s]+([0-9.,]+)", "Saldo\\s+Inicial[:\\s]+Acreedor[:\\s]+([0-9.,]+)"]

/-- Saldo loops of `extract_data` (`ocr_processor.py` lines 305-317):
for the first pattern whose `findall` list is non-empty and whose first
capture cleans, return that value. -/

def extractFirstClean (findall : String → List String)
    (pats : List String) : Option ℚ :=
  pats.findSome? (fun p =>
    match (findall p).head? with
    | some m => clean_number m
    | none => none)

/-- Python `a if a is not None else b` fallback chaining. -/

def pyOr {α : Type} (a b : Option α) : Option α :=
  match a with
  | some v => some v
  | none => b

/-- ExtractedRecord: the data dict built by `extract_data`
(`ocr_processor.py` lines 347-360), one column per tracked field. -/

structure Row where
  timestamp : String
  image_file : String
  year : Option Int
  concept : Option String
  concept_description : Option String
  saldo_inicial_deudor : Option ℚ
  saldo_inicial_acreedor : Option ℚ
  total_haber : Option ℚ
  total_debe : Option ℚ
  propuestas_mp : Option ℚ
  saldo_pendiente_acreedor : Option ℚ
  saldo_pendiente_deudor : Option ℚ
deriving DecidableEq

/-- `SicalOCRProcessor.extract_data` (`ocr_processor.py` lines 227-367):
`imageName` stands for `Path(image_path).name` and `now` for the
processing timestamp. -/

def extract_data (ocr : String → String → String) (env : RegexEnv)
    (imageName now : String) : Option Row :=
  let text := extract_text ocr
  if text = "" then none
  else
    some {
      timestamp := now
      image_file := imageName
      year := extractYear (fun p => env.search p text)
      concept := extractConcept (fun p => env.search p text)
        (env.fiveDigitHeader text)
      concept_description := extractDesc (fun p => env.search0 p text)
      saldo_inicial_deudor :=
        extractFirstClean (fun p => env.findall p text) deudor_patterns
      saldo_inicial_acreedor :=
        extractFirstClean (fun p => env.findall p text) acreedor_patterns
      total_haber := pyOr (extract_field_value env.find text "Total Haber")
        (extract_field_value env.find text "Haber")
      total_debe := pyOr (extract_field_value env.find text "Total Debe")
        (extract_field_value env.find text "Debe")
      propuestas_mp := pyOr
        (pyOr (extract_field_value env.find text "Propuestas de M/P")
          (extract_field_value env.find text "Propuestas de M"))
        (extract_field_value env.find text "Propuestas")
      saldo_pendiente_acreedor :=
        pyOr (extract_field_value env.find text "Saldo Pendiente Acreedor")
          (extract_field_value env.find text "Pendiente Acreedor")
      saldo_pendiente_deudor :=
        pyOr (extract_field_value env.find text "Saldo Pendiente Deudor")
          (extract_field_value env.find text "Pendiente Deudor") }

/-- The persisted ledger: the `budget_tracking` rows and the
`processed_files` filenames (UNIQUE). -/

structure DB where
  records : List Row
  processed : List String
deriving DecidableEq

/-- `SicalDatabase.is_file_processed` (`database.py` lines 65-74). -/

def is_file_processed (db : DB) (f : String) : Bool := db.processed.contains f

/-- `SicalDatabase.insert_data` (`database.py` lines 90-118): one
INSERT, one commit. -/

def insert_data (db : DB) (r : Row) : DB :=
  { db with records := db.records ++ [r] }

/-- The raw `INSERT INTO processed_files` against the UNIQUE column:
raises `IntegrityError` on a duplicate filename. -/

def insertMarkerIfAbsent (db : DB) (f : String) : Except Unit DB :=
  if db.processed.contains f then Except.error ()
  else Except.ok { db with processed := db.processed ++ [f] }

/-- `SicalDatabase.mark_file_processed` (`database.py` lines 76-88):
the INSERT is wrapped in `try/except sqlite3.IntegrityError`, which
logs a warning and returns normally. -/

def mark_file_processed (db : DB) (f : String) : Except Unit DB :=
  match insertMarkerIfAbsent db f with
  | Except.ok db2 => Except.ok db2
  | Except.error _ => Except.ok db

/-- Whole-system state: the ledger plus the filenames currently in the
screenshots (watch) directory and in the processed (archive) directory. -/

structure Sys where
  db : DB
  watch : List String
  archive : List String
deriving DecidableEq

/-- `ScreenshotHandler.process_file` (`monitor.py` lines 56-82), with
the pipeline's result for this image passed in as `data`
(`self.processor.extract_data(file_path)`): on a record, insert it,
mark the file, move it to the archive; on `None`, do nothing; the
whole body is wrapped in `try/except`, so an exception from marking
would leave the file in place. -/

def process_file (sys : Sys) (f : String) (data : Option Row) : Sys :=
  match data with
  | none => sys
  | some r =>
    let d1 := insert_data sys.db r
    match mark_file_processed d1 f with
    | Except.error _ => { sys with db := d1 }
    | Except.ok d2 =>
      { db := d2, watch := sys.watch.erase f, archive := sys.archive ++ [f] }

/-- Durable states of one `process_file` run, in order: before any
write, after the `insert_data` commit, after the `mark_file_processed`
commit, and after the archive move.  A crash between persistence steps
leaves the system in one of these states. -/

def processFileStates (sys : Sys) (f : String) (data : Option Row) : List Sys :=
  match data with
  | none => [sys]
  | some r =>
    let d1 := insert_data sys.db r
    let s1 := { sys with db := d1 }
    match mark_file_processed d1 f with
    | Except.error _ => [sys, s1]
    | Except.ok d2 =>
      let s2 := { s1 with db := d2 }
      [sys, s1, s2,
        { s2 with watch := s2.watch.erase f, archive := s2.archive ++ [f] }]

/-- `pathlib.Path(name).suffix`: the part of the name from its last dot
on, empty when there is no dot, when the only dot leads the name, or
when the last dot ends the name. -/

def pathSuffix (name : String) : String :=
  match splitOnC '.' name.data with
  | [] => ""
  | [_] => ""
  | [[], _] => ""
  | parts => if parts.getLastD [] = [] then "" else ⟨'.' :: parts.getLastD []⟩

/-- Python `str.lower()` for the ASCII names used here. -/

def lowerStr (s : String) : String := ⟨s.data.map Char.toLower⟩

/-- Extensions accepted by the live watch handler
(`monitor.py` line 40). -/

def image_extensions : List String := [".png", ".jpg", ".jpeg", ".bmp", ".tiff"]

def hasImageExt (f : String) : Bool :=
  image_extensions.contains (lowerStr (pathSuffix f))

/-- `ScreenshotHandler.on_created` (`monitor.py` lines 32-54) for a
file event: extension filter, settle delay (no state effect), skip of
already-processed filenames, then `process_file`. -/

def on_created (sys : Sys) (f : String) (data : Option Row) : Sys :=
  if hasImageExt f = false then sys
  else if is_file_processed sys.db f then sys
  else process_file sys f data

/-- Result of `screenshots_path.glob(pattern)` for a `*.<ext>` pattern:
the names with that exact (case-sensitive) suffix, in enumeration
order. -/

def globMatches (watch : List String) (ext : String) : List String :=
  watch.filter (fun f => ext.data.isSuffixOf f.data)

/-- Backlog list of `process_existing_files` (`monitor.py` lines 94-96):
`glob('*.png') + glob('*.jpg') + glob('*.jpeg')`. -/

def backlogFiles (watch : List String) : List String :=
  globMatches watch ".png" ++ globMatches watch ".jpg" ++ globMatches watch ".jpeg"

/-- `process_existing_files` (`monitor.py` lines 85-131): iterate the
backlog, skip already-processed names, process the rest (the loop body
repeats `process_file`'s insert-mark-move sequence). -/

def process_existing_files (sys : Sys) (dataOf : String → Option Row) : Sys :=
  (backlogFiles sys.watch).foldl
    (fun s f => if is_file_processed s.db f then s else process_file s f (dataOf f))
    sys

/-- A record as extracted for the file `a.png`, with every optional
field absent. -/

def row0 : Row :=
  { timestamp := "t", image_file := "a.png", year := none, concept := none,
    concept_description := none, saldo_inicial_deudor := none,
    saldo_inicial_acreedor := none, total_haber := none, total_debe := none,
    propuestas_mp := none, saldo_pendiente_acreedor := none,
    saldo_pendiente_deudor := none }

/-- Fresh system: empty ledger, one image in the watch directory. -/

def sys0 : Sys :=
  { db := { records := [], processed := [] }, watch := ["a.png"], archive := [] }

/-- Regex oracle with no matches anywhere. -/

def envNone : RegexEnv :=
  { find := fun _ _ => [], search := fun _ _ => none, search0 := fun _ _ => none,
    findall := fun _ _ => [], fiveDigitHeader := fun _ => none }

/-! ## Theorems -/

/-! ## Shared lemmas about the normaliser pipeline -/

theorem swapC_mem {a b c : Char} {l : List Char} (h : c ∈ swapC a b l) :
    c ∈ l ∨ c = b := by
  rcases List.mem_map.1 h with ⟨d, hd, hdc⟩
  by_cases hda : d = a
  · right
    rw [if_pos hda] at hdc
    exact hdc.symm
  · left
    rw [if_neg hda] at hdc
    exact hdc ▸ hd

theorem dropC_mem {a c : Char} {l : List Char} (h : c ∈ dropC a l) : c ∈ l :=
  (List.mem_filter.1 h).1

theorem mem_of_mem_splitOnC {a : Char} :
    ∀ {l p : List Char}, p ∈ splitOnC a l → ∀ {c : Char}, c ∈ p → c ∈ l := by
  intro l
  induction l with
  | nil =>
    intro p hp c hc
    simp [splitOnC] at hp
    subst hp; simp at hc
  | cons x xs ih =>
    intro p hp c hc
    rcases hs : splitOnC a xs with _ | ⟨h, t⟩
    · simp only [splitOnC, hs] at hp
      simp at hp; subst hp; simp at hc
    · simp only [splitOnC, hs] at hp
      by_cases hxa : x = a
      · rw [if_pos hxa] at hp
        rcases List.mem_cons.1 hp with h1 | h1
        · subst h1; simp at hc
        · exact List.mem_cons_of_mem x (ih (hs ▸ h1) hc)
      · rw [if_neg hxa] at hp
        rcases List.mem_cons.1 hp with h1 | h1
        · subst h1
          rcases List.mem_cons.1 hc with h2 | h2
          · exact h2 ▸ List.mem_cons_self x xs
          · refine List.mem_cons_of_mem x (ih ?_ h2)
            rw [hs]; exact List.mem_cons_self h t
        · refine List.mem_cons_of_mem x (ih ?_ hc)
          rw [hs]; exact List.mem_cons_of_mem h h1

theorem sepTransform_mem {c : Char} {l : List Char} (h : c ∈ sepTransform l) :
    c ∈ l ∨ c = '.' := by
  simp only [sepTransform] at h
  split at h
  · rcases swapC_mem h with h1 | h1
    · exact Or.inl (dropC_mem h1)
    · exact Or.inr h1
  split at h
  · rcases swapC_mem h with h1 | h1
    · exact Or.inl h1
    · exact Or.inr h1
  split at h
  · exact Or.inl (dropC_mem h)
  split at h
  case _ =>
    split at h
    case _ p1 p2 heq =>
      split at h
      · rcases List.mem_append.1 h with h1 | h1
        · refine Or.inl (mem_of_mem_splitOnC (a := '.') ?_ h1)
          rw [heq]; exact List.mem_cons_self _ _
        · refine Or.inl (mem_of_mem_splitOnC (a := '.') ?_ h1)
          rw [heq]; exact List.mem_cons_of_mem _ (List.mem_cons_self _ _)
      · exact Or.inl h
    case _ => exact Or.inl h
  case _ => exact Or.inl h

theorem parseMag_none_of_no_digit {m : List Char}
    (h : ∀ c ∈ m, c.isDigit = false) : parseMag m = none := by
  unfold parseMag
  split
  case _ ip heq =>
    rw [if_neg]
    rintro ⟨hne, hall⟩
    obtain ⟨c, hc⟩ := List.exists_mem_of_ne_nil _ hne
    have h1 := List.all_eq_true.1 hall c hc
    have h2 : c ∈ m := mem_of_mem_splitOnC (by rw [heq]; exact List.mem_cons_self _ _) hc
    rw [h c h2] at h1
    exact Bool.false_ne_true h1
  case _ ip fp heq =>
    rw [if_neg]
    rintro ⟨hne, hall1, hall2⟩
    obtain ⟨c, hc⟩ := List.exists_mem_of_ne_nil _ hne
    rcases List.mem_append.1 hc with h1 | h1
    · have hd := List.all_eq_true.1 hall1 c h1
      have h2 : c ∈ m :=
        mem_of_mem_splitOnC (by rw [heq]; exact List.mem_cons_self _ _) h1
      rw [h c h2] at hd
      exact Bool.false_ne_true hd
    · have hd := List.all_eq_true.1 hall2 c h1
      have h2 : c ∈ m :=
        mem_of_mem_splitOnC
          (by rw [heq]; exact List.mem_cons_of_mem _ (List.mem_cons_self _ _)) h1
      rw [h c h2] at hd
      exact Bool.false_ne_true hd
  case _ => rfl

theorem parseDec_none_of_no_digit {l : List Char}
    (h : ∀ c ∈ l, c.isDigit = false) : parseDec l = none := by
  unfold parseDec
  split
  case _ rest =>
    rw [parseMag_none_of_no_digit (fun c hc => h c (List.mem_cons_of_mem _ hc))]
    rfl
  case _ => exact parseMag_none_of_no_digit h

theorem residue_nonempty_data {s : String} (h : residue s ≠ []) : s.data ≠ [] := by
  intro hd
  exact h (by simp [residue, hd])

/-- Main-branch normal form of `clean_number`: outside the empty and
punctuation-only rejects, it is `finishBase` of the transformed residue. -/

theorem clean_number_eq_finish (s : String)
    (hg : ¬(residue s = [] ∨ residue s = ['-'] ∨ residue s = ['.'] ∨ residue s = [','])) :
    clean_number s = finishBase (sepTransform (residue s)) := by
  have hne : residue s ≠ [] := fun h => hg (Or.inl h)
  rw [clean_number, if_neg (residue_nonempty_data hne)]
  simp only []
  rw [if_neg hg]

theorem clean_number_guard_none (s : String)
    (h : residue s = ['-'] ∨ residue s = ['.'] ∨ residue s = [',']) :
    clean_number s = none := by
  have hne : residue s ≠ [] := by
    rcases h with h | h | h <;> rw [h] <;> simp
  rw [clean_number, if_neg (residue_nonempty_data hne)]
  simp only []
  rw [if_pos (Or.inr h)]

theorem sepTransform_both {l : List Char} (h1 : 0 < l.count '.')
    (h2 : 0 < l.count ',') :
    sepTransform l = swapC ',' '.' (dropC '.' l) := by
  rw [sepTransform]
  rw [if_pos ⟨h1, h2⟩]

theorem sepTransform_comma {l : List Char} (h1 : l.count ',' = 1)
    (h2 : l.count '.' = 0) :
    sepTransform l = swapC ',' '.' l := by
  rw [sepTransform]
  rw [if_neg (by rintro ⟨hx, -⟩; rw [h2] at hx; exact lt_irrefl 0 hx)]
  rw [if_pos ⟨h1, h2⟩]

theorem sepTransform_multidot {l : List Char} (h1 : 1 < l.count '.')
    (h2 : l.count ',' = 0) :
    sepTransform l = dropC '.' l := by
  rw [sepTransform]
  rw [if_neg (by rintro ⟨-, hx⟩; rw [h2] at hx; exact lt_irrefl 0 hx)]
  rw [if_neg (by rintro ⟨hx, -⟩; rw [h2] at hx; exact absurd hx Nat.zero_ne_one)]
  rw [if_pos h1]

theorem sepTransform_single_dot {l a b : List Char} (h1 : l.count '.' = 1)
    (h2 : l.count ',' = 0) (hs : splitOnC '.' l = [a, b]) :
    sepTransform l = if b.length = 3 then a ++ b else l := by
  rw [sepTransform]
  rw [if_neg (by rintro ⟨-, hx⟩; rw [h2] at hx; exact lt_irrefl 0 hx)]
  rw [if_neg (by rintro ⟨hx, -⟩; rw [h2] at hx; exact absurd hx Nat.zero_ne_one)]
  rw [if_neg (by rw [h1]; exact lt_irrefl 1)]
  rw [if_pos ⟨h1, h2⟩, hs]

/-- C2 counterexample: on `".-12"` the residue has exactly one dot and
no comma, and the fragment after the dot is the 3-character `"-12"`
holding only 2 digits; the claim's rule ("the dot is dropped when
exactly 3 digits follow it and is otherwise the decimal point") keeps
the dot, and the unchanged residue `".-12"` fails the decimal parse, so
the claim demands `none` — but the code compares the fragment's
*length* to 3 (`len(parts[1]) == 3`), drops the dot, and returns
`-12.0`. -/
theorem c2_digit_rule_counterexample :
    clean_number ".-12" = some (-12 : ℚ) ∧
    (residue ".-12").count '.' = 1 ∧
    (residue ".-12").count ',' = 0 ∧
    splitOnC '.' (residue ".-12") = [[], ['-', '1', '2']] ∧
    ['-', '1', '2'].countP Char.isDigit = 2 ∧
    finishBase (residue ".-12") = none := by
  refine ⟨?_, by decide, by decide, by decide, by decide, ?_⟩
  · simp [clean_number, residue, finishBase, parseDec, parseMag, sepTransform,
      isKeptChar, natOfDigits, dropC, swapC, splitOnC]
    norm_num
  · simp [residue, finishBase, parseDec, parseMag, isKeptChar, splitOnC]

/-- C2 amended: `clean_number` disambiguates separators by the count
rules on the stripped residue — both `.` and `,` present: drop all dots
and turn the comma into the decimal point; exactly one `,` and no `.`:
the comma is the decimal point; more than one `.` and no `,`: all dots
are dropped; exactly one `.` and no `,`: the dot is dropped when
exactly 3 characters follow it (digits in OCR practice, but a stray
minus also counts) and is otherwise the decimal point — and
`clean_number "2.131.793,20" = 2131793.20`, `clean_number "1,5" = 1.5`,
`clean_number "12.345" = 12345.0`. -/

theorem c2_separator_rules :
    (∀ s : String, 0 < (residue s).count '.' → 0 < (residue s).count ',' →
      clean_number s = finishBase (swapC ',' '.' (dropC '.' (residue s)))) ∧
    (∀ s : String, (residue s).count ',' = 1 → (residue s).count '.' = 0 →
      clean_number s = finishBase (swapC ',' '.' (residue s))) ∧
    (∀ s : String, 1 < (residue s).count '.' → (residue s).count ',' = 0 →
      clean_number s = finishBase (dropC '.' (residue s))) ∧
    (∀ (s : String) (a b : List Char), (residue s).count '.' = 1 →
      (residue s).count ',' = 0 → splitOnC '.' (residue s) = [a, b] →
      clean_number s = finishBase (if b.length = 3 then a ++ b else residue s)) ∧
    clean_number "2.131.793,20" = some (2131793.20 : ℚ) ∧
    clean_number "1,5" = some (1.5 : ℚ) ∧
    clean_number "12.345" = some (12345 : ℚ) := by
  refine ⟨?_, ?_, ?_, ?_, ?_, ?_, ?_⟩
  · intro s h1 h2
    have hg : ¬(residue s = [] ∨ residue s = ['-'] ∨ residue s = ['.'] ∨
        residue s = [',']) := by
      rintro (h | h | h | h)
      · rw [h] at h1; exact absurd h1 (by decide)
      · rw [h] at h1; exact absurd h1 (by decide)
      · rw [h] at h2; exact absurd h2 (by decide)
      · rw [h] at h1; exact absurd h1 (by decide)
    rw [clean_number_eq_finish s hg, sepTransform_both h1 h2]
  · intro s h1 h2
    by_cases hc : residue s = [',']
    · rw [clean_number_guard_none s (Or.inr (Or.inr hc)), hc]
      decide
    · have hg : ¬(residue s = [] ∨ residue s = ['-'] ∨ residue s = ['.'] ∨
          residue s = [',']) := by
        rintro (h | h | h | h)
        · rw [h] at h1; exact absurd h1 (by decide)
        · rw [h] at h1; exact absurd h1 (by decide)
        · rw [h] at h1; exact absurd h1 (by decide)
        · exact hc h
      rw [clean_number_eq_finish s hg, sepTransform_comma h1 h2]
  · intro s h1 h2
    have hg : ¬(residue s = [] ∨ residue s = ['-'] ∨ residue s = ['.'] ∨
        residue s = [',']) := by
      rintro (h | h | h | h)
      · rw [h] at h1; exact absurd h1 (by decide)
      · rw [h] at h1; exact absurd h1 (by decide)
      · rw [h] at h1; exact absurd h1 (by decide)
      · rw [h] at h1; exact absurd h1 (by decide)
    rw [clean_number_eq_finish s hg, sepTransform_multidot h1 h2]
  · intro s a b h1 h2 hs
    by_cases hc : residue s = ['.']
    · rw [hc, show splitOnC '.' ['.'] = [[], []] from by decide] at hs
      have ha2 : a = [] := by injection hs with hx hy; exact hx.symm
      have hb2 : b = [] := by
        injection hs with hx hy; injection hy with hz _; exact hz.symm
      subst ha2; subst hb2
      rw [clean_number_guard_none s (Or.inr (Or.inl hc)), hc]
      decide
    · have hg : ¬(residue s = [] ∨ residue s = ['-'] ∨ residue s = ['.'] ∨
          residue s = [',']) := by
        rintro (h | h | h | h)
        · rw [h] at h1; exact absurd h1 (by decide)
        · rw [h] at h1; exact absurd h1 (by decide)
        · exact hc h
        · rw [h] at h1; exact absurd h1 (by decide)
      rw [clean_number_eq_finish s hg, sepTransform_single_dot h1 h2 hs]
  · simp [clean_number, residue, finishBase, parseDec, parseMag, sepTransform,
      isKeptChar, natOfDigits, dropC, swapC, splitOnC]
    rw [abs_le]; constructor <;> norm_num
  · simp [clean_number, residue, finishBase, parseDec, parseMag, sepTransform,
      isKeptChar, natOfDigits, dropC, swapC, splitOnC]
    rw [abs_le]; constructor <;> norm_num
  · simp [clean_number, residue, finishBase, parseDec, parseMag, sepTransform,
      isKeptChar, natOfDigits, dropC, swapC, splitOnC]
    norm_num

/-- Witness for C2: each of the four separator rules applied at a
concrete input. -/

theorem c2_separator_rules_witness :
    clean_number "7.001,25" = finishBase (swapC ',' '.' (dropC '.' (residue "7.001,25"))) ∧
    clean_number "1,5" = finishBase (swapC ',' '.' (residue "1,5")) ∧
    clean_number "1.234.567" = finishBase (dropC '.' (residue "1.234.567")) ∧
    clean_number "12.345" =
      finishBase (if ("345".data.length = 3) then "12".data ++ "345".data
        else residue "12.345") :=
  ⟨c2_separator_rules.1 "7.001,25" (by decide) (by decide),
   c2_separator_rules.2.1 "1,5" (by decide) (by decide),
   c2_separator_rules.2.2.1 "1.234.567" (by decide) (by decide),
   c2_separator_rules.2.2.2.1 "12.345" "12".data "345".data (by decide) (by decide)
     (by decide)⟩

theorem clean_number_cases (s : String) :
    clean_number s = none ∨
      clean_number s = finishBase (sepTransform (residue s)) := by
  by_cases h0 : s.data = []
  · left; rw [clean_number, if_pos h0]
  by_cases hg : residue s = [] ∨ residue s = ['-'] ∨ residue s = ['.'] ∨
      residue s = [',']
  · left
    rw [clean_number, if_neg h0]
    simp only []
    rw [if_pos hg]
  · right; exact clean_number_eq_finish s hg

/-- C7: `clean_number` returns `none` whenever the cleaned residue has
no digit at all (empty or punctuation-only), whenever the transformed
residue fails to parse as a decimal, and whenever the parsed magnitude
exceeds the `1e15` ceiling; in particular `clean_number "abc" = none`
and `clean_number` of twenty nines is `none`. -/

theorem c7_reject_rules :
    (∀ s : String, (∀ c ∈ residue s, c.isDigit = false) →
      clean_number s = none) ∧
    (∀ s : String, parseDec (sepTransform (residue s)) = none →
      clean_number s = none) ∧
    (∀ (s : String) (v : ℚ), parseDec (sepTransform (residue s)) = some v →
      |v| > 10 ^ 15 → clean_number s = none) ∧
    clean_number "abc" = none ∧
    clean_number "99999999999999999999" = none := by
  refine ⟨?_, ?_, ?_, ?_, ?_⟩
  · intro s h
    rcases clean_number_cases s with h1 | h1
    · exact h1
    · rw [h1, finishBase]
      have hnd : ∀ c ∈ sepTransform (residue s), c.isDigit = false := by
        intro c hc
        rcases sepTransform_mem hc with h2 | h2
        · exact h c h2
        · rw [h2]; decide
      rw [parseDec_none_of_no_digit hnd]
  · intro s h
    rcases clean_number_cases s with h1 | h1
    · exact h1
    · rw [h1, finishBase, h]
  · intro s v h hv
    rcases clean_number_cases s with h1 | h1
    · exact h1
    · rw [h1, finishBase, h]
      simp only [hv, ite_true, gt_iff_lt]
  · simp [clean_number, residue, isKeptChar]
  · simp [clean_number, residue, finishBase, parseDec, parseMag, sepTransform,
      isKeptChar, natOfDigits, dropC, swapC, splitOnC]
    norm_num

/-- Witness for C7: the digit-free rule and the unparseable-residue rule
applied at concrete inputs. -/

theorem c7_reject_rules_witness :
    clean_number ",,--" = none ∧ clean_number "1-2" = none :=
  ⟨c7_reject_rules.1 ",,--" (by decide), c7_reject_rules.2.1 "1-2" (by decide)⟩

theorem sepTransform_eq_E_of_not_dot3 (l : List Char)
    (h : dot3cond l = false) : sepTransform l = sepTransformE l := by
  rw [sepTransform, sepTransformE]
  by_cases h1 : 0 < l.count '.' ∧ 0 < l.count ','
  · rw [if_pos h1, if_pos h1]
  rw [if_neg h1, if_neg h1]
  by_cases h2 : l.count ',' = 1 ∧ l.count '.' = 0
  · rw [if_pos h2, if_pos h2]
  rw [if_neg h2, if_neg h2]
  by_cases h3 : 1 < l.count '.'
  · rw [if_pos h3, if_pos h3]
  rw [if_neg h3, if_neg h3]
  by_cases h4 : l.count '.' = 1 ∧ l.count ',' = 0
  · rw [if_pos h4]
    have hm : (match splitOnC '.' l with
        | [_, b] => decide (b.length = 3)
        | _ => false) = false := by
      simpa [dot3cond, h4.1, h4.2] using h
    rcases hs : splitOnC '.' l with _ | ⟨p1, t⟩
    · rfl
    rcases t with _ | ⟨p2, t2⟩
    · rfl
    rcases t2 with _ | ⟨p3, t3⟩
    · rw [hs] at hm
      simp only [decide_eq_false_iff_not] at hm
      show (if p2.length = 3 then p1 ++ p2 else l) = l
      rw [if_neg hm]
    · rfl
  · rw [if_neg h4]

theorem finishBase_eq_bind (t : List Char) :
    finishBase t =
      (parseDec t).bind (fun v => if |v| > 10 ^ 15 then none else some v) := by
  cases h : parseDec t <;> simp [finishBase, h]

/-- C10 counterexample: the three `clean_number` implementations do not
agree — on `"12.345"` the base processor yields `12345` while the
enhanced and easyocr processors yield `12.345`, and on twenty nines the
enhanced processor yields a value while the easyocr one rejects it. -/

theorem c10_normalizers_differ :
    clean_number "12.345" = some (12345 : ℚ) ∧
    clean_number_enhanced "12.345" = some (12.345 : ℚ) ∧
    clean_number_easyocr "12.345" = some (12.345 : ℚ) ∧
    (12345 : ℚ) ≠ (12.345 : ℚ) ∧
    clean_number_enhanced "99999999999999999999" = some ((10 : ℚ) ^ 20 - 1) ∧
    clean_number_easyocr "99999999999999999999" = none := by
  refine ⟨?_, ?_, ?_, by norm_num, ?_, ?_⟩
  · simp [clean_number, residue, finishBase, parseDec, parseMag, sepTransform,
      isKeptChar, natOfDigits, dropC, swapC, splitOnC]
    norm_num
  · simp [clean_number_enhanced, residue, parseDec, parseMag, sepTransformE,
      isKeptChar, natOfDigits, dropC, swapC, splitOnC]
    norm_num
  · simp [clean_number_easyocr, residue, finishBase, parseDec, parseMag,
      sepTransformE, isKeptChar, natOfDigits, dropC, swapC, splitOnC]
    constructor
    · rw [abs_le]; constructor <;> norm_num
    · norm_num
  · simp [clean_number_enhanced, residue, parseDec, parseMag, sepTransformE,
      isKeptChar, natOfDigits, dropC, swapC, splitOnC]
    norm_num
  · simp [clean_number_easyocr, residue, finishBase, parseDec, parseMag,
      sepTransformE, isKeptChar, natOfDigits, dropC, swapC, splitOnC]
    norm_num

/-- C10 amended: the enhanced and easyocr normalisers agree up to the
`1e15` ceiling that only the easyocr one applies, and the base
normaliser agrees with the easyocr one on every input whose residue
does not have exactly one dot, no comma and a 3-character fragment
after the dot (the base-only single-dot rule). -/

theorem c10_normalizers_agreement :
    (∀ s : String, dot3cond (residue s) = false →
      clean_number s = clean_number_easyocr s) ∧
    (∀ s : String,
      clean_number_easyocr s =
        (clean_number_enhanced s).bind
          (fun v => if |v| > 10 ^ 15 then none else some v)) := by
  constructor
  · intro s h
    rw [clean_number, clean_number_easyocr]
    by_cases h0 : s.data = []
    · rw [if_pos h0, if_pos h0]
    rw [if_neg h0, if_neg h0]
    simp only []
    by_cases hg : residue s = [] ∨ residue s = ['-'] ∨ residue s = ['.'] ∨
        residue s = [',']
    · rw [if_pos hg, if_pos hg]
    · rw [if_neg hg, if_neg hg, sepTransform_eq_E_of_not_dot3 _ h]
  · intro s
    rw [clean_number_easyocr, clean_number_enhanced]
    by_cases h0 : s.data = []
    · rw [if_pos h0, if_pos h0]; rfl
    rw [if_neg h0, if_neg h0]
    simp only []
    by_cases hg : residue s = [] ∨ residue s = ['-'] ∨ residue s = ['.'] ∨
        residue s = [',']
    · rw [if_pos hg, if_pos hg]; rfl
    · rw [if_neg hg, if_neg hg]
      exact finishBase_eq_bind _

/-- Witness for C10's amended statement at a concrete input. -/

theorem c10_normalizers_agreement_witness :
    clean_number "1,5" = clean_number_easyocr "1,5" :=
  c10_normalizers_agreement.1 "1,5" (by decide)

theorem validNZ_some_ne_zero {c : String} {v : ℚ} (h : validNZ c = some v) :
    v ≠ 0 := by
  unfold validNZ at h
  rcases hcn : clean_number c with _ | u
  · simp only [hcn] at h
    exact absurd h (by simp)
  · simp only [hcn] at h
    by_cases hu : u ≠ 0
    · rw [if_pos hu] at h
      injection h with h2
      exact h2 ▸ hu
    · rw [if_neg hu] at h
      exact absurd h (by simp)

theorem validNZ_none_of_zero_or_none {c : String}
    (h : clean_number c = none ∨ clean_number c = some 0) : validNZ c = none := by
  unfold validNZ
  rcases h with h | h <;> simp only [h]
  simp

/-- C9: `extract_field_value` never returns exactly zero — a candidate
whose cleaned value is `0` counts as no match and the cascade keeps
searching — and it returns `none` when every capture of every pattern
cleans to nothing or to zero. -/

theorem c9_zero_is_no_match :
    (∀ (find : String → String → List String) (text field : String),
      extract_field_value find text field ≠ some 0) ∧
    (∀ (find : String → String → List String) (text field : String),
      (∀ p : String, ∀ c ∈ find p text,
        clean_number c = none ∨ clean_number c = some 0) →
      extract_field_value find text field = none) := by
  constructor
  · intro find text field h
    obtain ⟨p, -, hp⟩ := List.exists_of_findSome?_eq_some h
    obtain ⟨c, -, hc⟩ := List.exists_of_findSome?_eq_some hp
    exact validNZ_some_ne_zero hc rfl
  · intro find text field h
    apply List.findSome?_eq_none_iff.2
    intro p _
    apply List.findSome?_eq_none_iff.2
    intro c hc
    exact validNZ_none_of_zero_or_none (h p c hc)

/-- Witness for C9: a capture list holding only a zero and a non-number
yields no field value. -/

theorem c9_zero_is_no_match_witness :
    extract_field_value (fun _ _ => ["0", "xyz"]) "t" "Total Debe" = none := by
  apply c9_zero_is_no_match.2
  intro p c hc
  rcases List.mem_cons.1 hc with h | h
  · right
    subst h
    show clean_number "0" = some 0
    simp [clean_number, residue, finishBase, parseDec, parseMag, sepTransform,
      isKeptChar, natOfDigits, splitOnC]
  · rcases List.mem_cons.1 h with h2 | h2
    · left
      subst h2
      simp [clean_number, residue, isKeptChar]
    · exact absurd h2 (by simp)

/-- C6 amended: for a field label with a single spelling (no `ñ` — true
of every label `extract_data` queries), the fully-labeled pattern is
first in the cascade, so whenever it has a capture cleaning to a
non-zero value, `extract_field_value` returns the first such labeled
value no matter what the looser patterns would match. -/

theorem c6_labeled_match_wins (find : String → String → List String)
    (text field : String) (v : ℚ)
    (hplain : field.data.contains 'ñ' = false)
    (h : firstValidNZ (find (labeledPattern field) text) = some v) :
    extract_field_value find text field = some v := by
  unfold extract_field_value allFieldPatterns field_variants
  simp only [hplain, Bool.false_eq_true, if_false, List.flatMap_cons,
    List.flatMap_nil, List.append_nil, mkPatterns, List.findSome?_cons, h]

/-- Witness for C6's amended statement: a concrete oracle in which the
labeled pattern of `"Total Haber"` captures `"880.033,27"`. -/

theorem c6_labeled_match_wins_witness :
    extract_field_value
      (fun p _ => if p = labeledPattern "Total Haber" then ["880.033,27"] else ["1"])
      "t" "Total Haber" = some (880033.27 : ℚ) := by
  apply c6_labeled_match_wins
  · decide
  · show firstValidNZ (if labeledPattern "Total Haber" = labeledPattern "Total Haber"
      then ["880.033,27"] else ["1"]) = some (880033.27 : ℚ)
    rw [if_pos rfl]
    unfold firstValidNZ
    rw [List.findSome?_cons]
    have hv : validNZ "880.033,27" = some (880033.27 : ℚ) := by
      unfold validNZ
      have hc : clean_number "880.033,27" = some (880033.27 : ℚ) := by
        simp [clean_number, residue, finishBase, parseDec, parseMag, sepTransform,
          isKeptChar, natOfDigits, dropC, swapC, splitOnC]
        rw [abs_le]; constructor <;> norm_num
      rw [hc]
      norm_num
    rw [hv]

theorem findSome?_cons_none {α β : Type} {f : α → Option β} {a : α}
    {as : List α} (h : f a = none) :
    List.findSome? f (a :: as) = List.findSome? f as := by
  rw [List.findSome?_cons, h]

theorem findSome?_cons_some {α β : Type} {f : α → Option β} {a : α}
    {as : List α} {b : β} (h : f a = some b) :
    List.findSome? f (a :: as) = some b := by
  rw [List.findSome?_cons, h]

/-- C6 counterexample: for the field label `Año` the cascade is grouped
by spelling variant, so the loose 50-character-gap pattern of the
accented spelling is tried before the fully-labeled pattern of the
de-accented spelling; on `anioText` the resolver returns the loose
match `7` even though the labeled match `5` exists. -/

theorem c6_variant_order_counterexample :
    extract_field_value findAnio anioText "Año" = some (7 : ℚ) ∧
    firstValidNZ (findAnio (labeledPattern "Ano") anioText) = some (5 : ℚ) ∧
    "Ano" ∈ field_variants "Año" ∧ (7 : ℚ) ≠ 5 := by
  have h7 : validNZ "7" = some (7 : ℚ) := by
    unfold validNZ
    have hc : clean_number "7" = some (7 : ℚ) := by
      simp [clean_number, residue, finishBase, parseDec, parseMag, sepTransform,
        isKeptChar, natOfDigits, splitOnC]
      norm_num
    rw [hc]
    norm_num
  have h5 : validNZ "5" = some (5 : ℚ) := by
    unfold validNZ
    have hc : clean_number "5" = some (5 : ℚ) := by
      simp [clean_number, residue, finishBase, parseDec, parseMag, sepTransform,
        isKeptChar, natOfDigits, splitOnC]
      norm_num
    rw [hc]
    norm_num
  have hc5 : firstValidNZ (findAnio (labeledPattern "Ano") anioText) = some (5 : ℚ) := by
    rw [show findAnio (labeledPattern "Ano") anioText = ["5"] from by decide]
    exact findSome?_cons_some h5
  refine ⟨?_, hc5, ?_, by norm_num⟩
  · unfold extract_field_value
    rw [show allFieldPatterns "Año" =
      [labeledPattern "Año", colonPattern "Año", nearPattern "Año", farPattern "Año",
       labeledPattern "Ano", colonPattern "Ano", nearPattern "Ano", farPattern "Ano",
       labeledPattern "Afio", colonPattern "Afio", nearPattern "Afio", farPattern "Afio"]
      from by decide]
    rw [findSome?_cons_none
      (by rw [show findAnio (labeledPattern "Año") anioText = [] from by decide]; rfl)]
    rw [findSome?_cons_none
      (by rw [show findAnio (colonPattern "Año") anioText = [] from by decide]; rfl)]
    apply findSome?_cons_some
    rw [show findAnio (nearPattern "Año") anioText = ["7"] from by decide]
    exact findSome?_cons_some h7
  · rw [show field_variants "Año" = ["Año", "Ano", "Afio"] from by decide]
    exact List.mem_cons_of_mem _ (List.mem_cons_self _ _)

/-- C1: `insert_data` and `mark_file_processed` each run in their own
sqlite connection and commit separately (`database.py` lines 92-118 and
78-88), so the durable state reached by crashing between the two
commits holds the `ExtractedRecord` for `a.png` with no
`processed_files` marker — the two inserts do not commit as one atomic
unit. -/

theorem c1_record_without_marker_reachable :
    ({ db := { records := [row0], processed := [] }, watch := ["a.png"],
        archive := [] } : Sys) ∈ processFileStates sys0 "a.png" (some row0) ∧
    (({ records := [row0], processed := [] } : DB).records.any
      (fun r => r.image_file == "a.png")) = true ∧
    is_file_processed { records := [row0], processed := [] } "a.png" = false := by
  decide

/-- C3: a filename already present in the `processed_files` ledger is
skipped both by the live handler and by the backlog drain: no record is
inserted, no state changes, and no exception escapes (the functions are
total). -/

theorem c3_second_attempt_is_noop :
    (∀ (sys : Sys) (f : String) (data : Option Row),
      is_file_processed sys.db f = true → on_created sys f data = sys) ∧
    (∀ (sys : Sys) (dataOf : String → Option Row),
      (∀ g ∈ backlogFiles sys.watch, is_file_processed sys.db g = true) →
      process_existing_files sys dataOf = sys) := by
  constructor
  · intro sys f data h
    simp [on_created, h]
  · intro sys dataOf h
    unfold process_existing_files
    have key : ∀ (l : List String),
        (∀ g ∈ l, is_file_processed sys.db g = true) →
        l.foldl (fun s f =>
          if is_file_processed s.db f then s else process_file s f (dataOf f))
          sys = sys := by
      intro l
      induction l with
      | nil => intro _; rfl
      | cons g gs ih =>
        intro hall
        rw [List.foldl_cons, if_pos]
        · exact ih (fun x hx => hall x (List.mem_cons_of_mem _ hx))
        · exact hall g (List.mem_cons_self _ _)
    exact key _ h

/-- Witness for C3: the already-committed `a.png` is re-discovered and
skipped without any state change. -/

theorem c3_second_attempt_is_noop_witness :
    on_created
      { db := { records := [row0], processed := ["a.png"] }, watch := ["a.png"],
        archive := [] } "a.png" (some row0) =
      { db := { records := [row0], processed := ["a.png"] }, watch := ["a.png"],
        archive := [] } :=
  c3_second_attempt_is_noop.1 _ "a.png" (some row0) (by decide)

/-- C4 counterexample: on a duplicate filename `mark_file_processed`
catches the `IntegrityError` raised by the UNIQUE insert and completes
normally, returning the unchanged ledger — to its caller the duplicate
is indistinguishable from a fresh successful insert, which also
completes normally. -/

theorem c4_duplicate_swallowed :
    mark_file_processed { records := [], processed := ["a.png"] } "a.png" =
      Except.ok { records := [], processed := ["a.png"] } ∧
    insertMarkerIfAbsent { records := [], processed := ["a.png"] } "a.png" =
      Except.error () ∧
    mark_file_processed { records := [], processed := [] } "a.png" =
      Except.ok { records := [], processed := ["a.png"] } :=
  ⟨rfl, rfl, rfl⟩

/-- C4 amended: `mark_file_processed` never fails to its caller — on
every ledger and filename it completes normally, inserting the marker
when absent and leaving the ledger unchanged (with a logged warning)
when the filename is already marked. -/

theorem c4_mark_never_raises (db : DB) (f : String) :
    mark_file_processed db f =
      Except.ok (if db.processed.contains f then db
        else { db with processed := db.processed ++ [f] }) := by
  unfold mark_file_processed insertMarkerIfAbsent
  by_cases h : db.processed.contains f
  · rw [if_pos h, if_pos h]
  · rw [if_neg h, if_neg h]

/-- C5: when every preprocessing-variant × configuration combination
yields empty text (or fails, which the source swallows), `extract_data`
returns `None` without raising, and the controller then inserts no
record, writes no marker, and leaves the image in the watch directory. -/

theorem c5_all_empty_no_effect
    (ocr : String → String → String) (env : RegexEnv) (name now : String)
    (sys : Sys) (f : String)
    (h : ∀ m c : String, ocr m c = "") :
    extract_data ocr env name now = none ∧
    process_file sys f (extract_data ocr env name now) = sys := by
  have ht : extract_text ocr = "" := by
    unfold extract_text ocrRuns preprocess_methods tesseract_configs
    simp [h]
  have hd : extract_data ocr env name now = none := by
    unfold extract_data
    rw [ht]
    simp
  exact ⟨hd, by rw [hd]; rfl⟩

/-- Witness for C5: the all-empty OCR oracle leaves the fresh system
untouched. -/

theorem c5_all_empty_no_effect_witness :
    extract_data (fun _ _ => "") envNone "a.png" "t" = none ∧
    process_file sys0 "a.png" (extract_data (fun _ _ => "") envNone "a.png" "t") =
      sys0 :=
  c5_all_empty_no_effect (fun _ _ => "") envNone "a.png" "t" sys0 "a.png"
    (fun _ _ => rfl)

/-- C8 counterexample: `scan.bmp` carries an accepted image extension,
but the backlog drain globs only `*.png`, `*.jpg`, `*.jpeg`, so a
`.bmp` file already present at startup is not drained: even with an
extractor that would succeed, the drain leaves the system unchanged —
no record, no marker, file not archived. -/

theorem c8_bmp_not_drained :
    hasImageExt "scan.bmp" = true ∧
    backlogFiles ["scan.bmp"] = [] ∧
    process_existing_files
      { db := { records := [], processed := [] }, watch := ["scan.bmp"],
        archive := [] } (fun _ => some row0) =
      { db := { records := [], processed := [] }, watch := ["scan.bmp"],
        archive := [] } := by
  refine ⟨by decide, by decide, ?_⟩
  rfl

/-- C8 amended: the backlog drain visits exactly the files of the watch
directory whose names end in `.png`, `.jpg` or `.jpeg` (case-sensitive
glob patterns); `.bmp` and `.tiff` files are accepted only by the live
event handler. -/

theorem c8_backlog_exact (f : String) (watch : List String) :
    f ∈ backlogFiles watch ↔
      f ∈ watch ∧ (".png".data.isSuffixOf f.data = true ∨
        ".jpg".data.isSuffixOf f.data = true ∨
        ".jpeg".data.isSuffixOf f.data = true) := by
  simp only [backlogFiles, globMatches, List.mem_append, List.mem_filter]
  tauto
